import Mathlib

/-!
Verification of the proportion (binomial) significance test described by the
repository's notebooks.  The notebooks compute one-sided binomial p-values as
`1 - stats.binom.cdf(c-1, n=n, p=p0)` and two-tailed p-values as
`2 * min(cdf, 1 - cdf)`; the surrounding `test_proportion` interface
(validation, alternatives, TestResult) is described in the specification.
All probabilities are embedded as exact rationals.
-/

namespace ABTest

/-- Probability mass function of the Binomial(n, p) distribution at k,
embedding `stats.binom.pmf(k, n=n, p=p)`: C(n, k) · p^k · (1-p)^(n-k). -/
def binomPMF (n : ℕ) (p : ℚ) (k : ℕ) : ℚ :=
  (n.choose k : ℚ) * p ^ k * (1 - p) ^ (n - k)

/-- Cumulative sums of `binomPMF` over {0, …, k}, the binomial CDF restricted
to natural-number arguments. -/
def binomCDFAux (n : ℕ) (p : ℚ) : ℕ → ℚ
  | 0 => binomPMF n p 0
  | k + 1 => binomCDFAux n p k + binomPMF n p (k + 1)

/-- Cumulative distribution function of Binomial(n, p) at an integer k,
embedding `stats.binom.cdf(k, n=n, p=p)`, which is 0 for k < 0. -/
def binomCDF (n : ℕ) (p : ℚ) (k : ℤ) : ℚ :=
  if k < 0 then 0 else binomCDFAux n p k.toNat

/-- The alternative hypothesis of the proportion test. -/
inductive Alternative
  | greater
  | less
  | twoSided
deriving DecidableEq

/-- Result of a proportion test: observed rate c/n, the p-value, and the
alternative used. -/
structure TestResult where
  observed_rate : ℚ
  p_value : ℚ
  alternative : Alternative
deriving DecidableEq

/-- Error taxonomy of the proportion test. -/
inductive TestError
  | invalidParameter
deriving DecidableEq

/-- One-sided p-value for alternative `greater`, embedding the notebooks'
`1 - stats.binom.cdf(c-1, n=n, p=p0)`. -/
def p_value_greater (c n : ℤ) (p0 : ℚ) : ℚ :=
  1 - binomCDF n.toNat p0 (c - 1)

/-- One-sided p-value for alternative `less`: `stats.binom.cdf(c, n=n, p=p0)`. -/
def p_value_less (c n : ℤ) (p0 : ℚ) : ℚ :=
  binomCDF n.toNat p0 c

/-- Two-sided p-value: 2 · min(P(X ≥ c), P(X ≤ c)), capped at 1. -/
def p_value_twoSided (c n : ℤ) (p0 : ℚ) : ℚ :=
  min 1 (2 * min (p_value_greater c n p0) (p_value_less c n p0))

/-- Dispatch of the p-value over the alternative. -/
def raw_p_value (c n : ℤ) (p0 : ℚ) : Alternative → ℚ
  | .greater => p_value_greater c n p0
  | .less => p_value_less c n p0
  | .twoSided => p_value_twoSided c n p0

/-- Modelled from the spec: the function `test_proportion(c, n, p0, alternative)`
of section 6 of the specification.  The repository's notebooks contain only its
inline one-liner body (`1 - stats.binom.cdf(c-1, n=n, p=p0)` and the two-sided
variant); the validation (InvalidParameter when n ≤ 0, c outside [0, n], or p0
outside [0, 1]) and the TestResult packaging follow the specification's words. -/
def test_proportion (c n : ℤ) (p0 : ℚ) (alt : Alternative) :
    Except TestError TestResult :=
  if 0 < n ∧ 0 ≤ c ∧ c ≤ n ∧ 0 ≤ p0 ∧ p0 ≤ 1 then
    .ok ⟨(c : ℚ) / (n : ℚ), raw_p_value c n p0 alt, alt⟩
  else
    .error .invalidParameter

/-- Modelled from the spec: `scipy.stats.binomtest(c, n=n, p=p0,
alternative='greater').pvalue`, the exact upper-tail probability P(X ≥ c) of a
Binomial(n, p0) variable.  The library itself is external to the repository. -/
def binomtest_greater (c n : ℕ) (p : ℚ) : ℚ :=
  ∑ i in Finset.Icc c n, binomPMF n p i

/-- Two-tailed p-value from a CDF value F, embedding the notebook line
`p_values = 2*np.minimum(st.norm.cdf(...), 1-st.norm.cdf(...))`. -/
def two_tailed_p (F : ℚ) : ℚ :=
  2 * min F (1 - F)

/-! Basic facts about the binomial CDF. -/

theorem binomPMF_nonneg {p : ℚ} (hp0 : 0 ≤ p) (hp1 : p ≤ 1) (n k : ℕ) :
    0 ≤ binomPMF n p k := by
  have h1 : (0:ℚ) ≤ 1 - p := by linarith
  unfold binomPMF
  positivity

theorem binomCDFAux_eq_sum (n : ℕ) (p : ℚ) (k : ℕ) :
    binomCDFAux n p k = ∑ i in Finset.range (k + 1), binomPMF n p i := by
  induction k with
  | zero => simp [binomCDFAux]
  | succ k ih => rw [Finset.sum_range_succ, ← ih, binomCDFAux]

theorem sum_range_binomPMF (n : ℕ) (p : ℚ) :
    ∑ i in Finset.range (n + 1), binomPMF n p i = 1 := by
  have h := add_pow p (1 - p) n
  have hs : p + (1 - p) = 1 := by ring
  rw [hs, one_pow] at h
  rw [h]
  refine Finset.sum_congr rfl ?_
  intro i _
  unfold binomPMF
  ring

theorem binomCDFAux_self (n : ℕ) (p : ℚ) : binomCDFAux n p n = 1 := by
  rw [binomCDFAux_eq_sum, sum_range_binomPMF]

theorem binomPMF_eq_zero {n k : ℕ} (h : n < k) (p : ℚ) : binomPMF n p k = 0 := by
  unfold binomPMF
  rw [Nat.choose_eq_zero_of_lt h]
  simp

theorem binomCDFAux_of_le {n k : ℕ} (h : n ≤ k) (p : ℚ) :
    binomCDFAux n p k = 1 := by
  induction k with
  | zero =>
    have : n = 0 := Nat.le_zero.mp h
    subst this
    exact binomCDFAux_self 0 p
  | succ k ih =>
    rcases Nat.lt_or_ge n (k + 1) with hlt | hge
    · have hnk : n ≤ k := Nat.lt_succ_iff.mp hlt
      rw [binomCDFAux, ih hnk, binomPMF_eq_zero hlt, add_zero]
    · have : n = k + 1 := le_antisymm h hge
      subst this
      exact binomCDFAux_self (k + 1) p

theorem binomCDFAux_mono {p : ℚ} (hp0 : 0 ≤ p) (hp1 : p ≤ 1) (n : ℕ)
    {j k : ℕ} (h : j ≤ k) : binomCDFAux n p j ≤ binomCDFAux n p k := by
  induction k with
  | zero =>
    have : j = 0 := Nat.le_zero.mp h
    subst this
    exact le_refl _
  | succ k ih =>
    rcases Nat.lt_or_ge j (k + 1) with hlt | hge
    · have hj : j ≤ k := Nat.lt_succ_iff.mp hlt
      calc binomCDFAux n p j ≤ binomCDFAux n p k := ih hj
        _ ≤ binomCDFAux n p k + binomPMF n p (k + 1) := by
            have := binomPMF_nonneg hp0 hp1 n (k + 1)
            linarith
        _ = binomCDFAux n p (k + 1) := rfl
    · have : j = k + 1 := le_antisymm h hge
      subst this
      exact le_refl _

theorem binomCDFAux_nonneg {p : ℚ} (hp0 : 0 ≤ p) (hp1 : p ≤ 1) (n k : ℕ) :
    0 ≤ binomCDFAux n p k := by
  induction k with
  | zero => exact binomPMF_nonneg hp0 hp1 n 0
  | succ k ih =>
    have := binomPMF_nonneg hp0 hp1 n (k + 1)
    have h : binomCDFAux n p (k + 1) = binomCDFAux n p k + binomPMF n p (k + 1) := rfl
    rw [h]
    linarith

theorem binomCDFAux_le_one {p : ℚ} (hp0 : 0 ≤ p) (hp1 : p ≤ 1) (n k : ℕ) :
    binomCDFAux n p k ≤ 1 := by
  rcases Nat.le_total k n with hk | hk
  · calc binomCDFAux n p k ≤ binomCDFAux n p n := binomCDFAux_mono hp0 hp1 n hk
      _ = 1 := binomCDFAux_self n p
  · rw [binomCDFAux_of_le hk]

theorem binomCDF_nonneg {p : ℚ} (hp0 : 0 ≤ p) (hp1 : p ≤ 1) (n : ℕ) (k : ℤ) :
    0 ≤ binomCDF n p k := by
  unfold binomCDF
  split
  · exact le_refl 0
  · exact binomCDFAux_nonneg hp0 hp1 n k.toNat

theorem binomCDF_le_one {p : ℚ} (hp0 : 0 ≤ p) (hp1 : p ≤ 1) (n : ℕ) (k : ℤ) :
    binomCDF n p k ≤ 1 := by
  unfold binomCDF
  split
  · exact zero_le_one
  · exact binomCDFAux_le_one hp0 hp1 n k.toNat

theorem binomCDF_mono {p : ℚ} (hp0 : 0 ≤ p) (hp1 : p ≤ 1) (n : ℕ)
    {j k : ℤ} (h : j ≤ k) : binomCDF n p j ≤ binomCDF n p k := by
  unfold binomCDF
  split
  · split
    · exact le_refl 0
    · exact binomCDFAux_nonneg hp0 hp1 n k.toNat
  · rename_i hj
    have hk : ¬ k < 0 := by omega
    rw [if_neg hk]
    exact binomCDFAux_mono hp0 hp1 n (by omega)

theorem binomCDF_tail (n : ℕ) (p : ℚ) {c : ℕ} (hc : c ≤ n) :
    1 - binomCDF n p ((c : ℤ) - 1) = ∑ i in Finset.Icc c n, binomPMF n p i := by
  have hsplit : ∑ i in Finset.Ico 0 c, binomPMF n p i
      + ∑ i in Finset.Ico c (n + 1), binomPMF n p i
      = ∑ i in Finset.Ico 0 (n + 1), binomPMF n p i :=
    Finset.sum_Ico_consecutive _ (Nat.zero_le c) (by omega)
  have htot : ∑ i in Finset.Ico 0 (n + 1), binomPMF n p i = 1 := by
    rw [← Finset.range_eq_Ico]
    exact sum_range_binomPMF n p
  have hicc : Finset.Ico c (n + 1) = Finset.Icc c n := Nat.Ico_succ_right c n
  rcases Nat.eq_zero_or_pos c with hc0 | hcpos
  · subst hc0
    have hneg : (((0 : ℕ) : ℤ) - 1) < 0 := by omega
    rw [binomCDF, if_pos hneg, ← hicc, ← Finset.range_eq_Ico,
      sum_range_binomPMF]
    norm_num
  · have hnneg : ¬ ((c : ℤ) - 1 < 0) := by omega
    have htn : ((c : ℤ) - 1).toNat = c - 1 := by omega
    rw [binomCDF, if_neg hnneg, htn, binomCDFAux_eq_sum]
    have hc1 : c - 1 + 1 = c := Nat.succ_pred_eq_of_pos hcpos
    rw [hc1, Finset.range_eq_Ico]
    rw [hicc] at hsplit
    linarith

/-! Unfolding lemmas for `test_proportion`. -/

theorem test_proportion_eq_ok {c n : ℤ} {p0 : ℚ} (alt : Alternative)
    (h1 : 0 < n) (h2 : 0 ≤ c) (h3 : c ≤ n) (h4 : 0 ≤ p0) (h5 : p0 ≤ 1) :
    test_proportion c n p0 alt =
      .ok ⟨(c : ℚ) / (n : ℚ), raw_p_value c n p0 alt, alt⟩ := by
  rw [test_proportion, if_pos ⟨h1, h2, h3, h4, h5⟩]

theorem test_proportion_ok_iff {c n : ℤ} {p0 : ℚ} {alt : Alternative}
    {r : TestResult} :
    test_proportion c n p0 alt = .ok r ↔
      ((0 < n ∧ 0 ≤ c ∧ c ≤ n ∧ 0 ≤ p0 ∧ p0 ≤ 1) ∧
        r = ⟨(c : ℚ) / (n : ℚ), raw_p_value c n p0 alt, alt⟩) := by
  unfold test_proportion
  split
  · rename_i h
    constructor
    · intro hok
      exact ⟨h, (Except.ok.inj hok).symm⟩
    · intro ⟨_, hr⟩
      rw [hr]
  · rename_i h
    constructor
    · intro hok
      exact absurd hok (by simp)
    · intro ⟨hv, _⟩
      exact absurd hv h

/-! Binomial coefficients needed by the concrete scenarios, evaluated once. -/

theorem choose50_vals : Nat.choose 50 2 = 1225 ∧ Nat.choose 50 3 = 19600 ∧
    Nat.choose 50 4 = 230300 ∧ Nat.choose 50 5 = 2118760 ∧
    Nat.choose 50 6 = 15890700 ∧ Nat.choose 50 7 = 99884400 ∧
    Nat.choose 50 8 = 536878650 ∧ Nat.choose 50 9 = 2505433700 := by decide

theorem choose25_vals : Nat.choose 25 2 = 300 ∧ Nat.choose 25 3 = 2300 ∧
    Nat.choose 25 4 = 12650 := by decide

/-! The claims. -/

/-- C1: for every valid input (0 < n, 0 ≤ c ≤ n, 0 < p0 < 1) with alternative
`greater`, the proportion test returns the p-value 1 − CDF(c−1; n, p0), and
this value equals the upper tail P(X ≥ c) = ∑_{i=c}^{n} pmf(i; n, p0) of a
Binomial(n, p0) variable X. -/
theorem C1_greater_pvalue_is_upper_tail (c n : ℤ) (p0 : ℚ)
    (hn : 0 < n) (hc0 : 0 ≤ c) (hcn : c ≤ n) (hp0 : 0 < p0) (hp1 : p0 < 1) :
    test_proportion c n p0 .greater =
      .ok ⟨(c : ℚ) / (n : ℚ), 1 - binomCDF n.toNat p0 (c - 1), .greater⟩ ∧
    1 - binomCDF n.toNat p0 (c - 1) =
      ∑ i in Finset.Icc c.toNat n.toNat, binomPMF n.toNat p0 i := by
  constructor
  · exact test_proportion_eq_ok .greater hn hc0 hcn (le_of_lt hp0) (le_of_lt hp1)
  · have hle : c.toNat ≤ n.toNat := by omega
    have h := binomCDF_tail n.toNat p0 hle
    have hc' : ((c.toNat : ℤ)) = c := Int.toNat_of_nonneg hc0
    rw [hc'] at h
    exact h

theorem C1_witness :
    test_proportion 1 2 (1/2) .greater =
      .ok ⟨((1:ℤ) : ℚ) / ((2:ℤ) : ℚ), 1 - binomCDF (2:ℤ).toNat (1/2) (1 - 1),
        .greater⟩ ∧
    1 - binomCDF (2:ℤ).toNat (1/2) (1 - 1) =
      ∑ i in Finset.Icc (1:ℤ).toNat (2:ℤ).toNat, binomPMF (2:ℤ).toNat (1/2) i :=
  C1_greater_pvalue_is_upper_tail 1 2 (1/2) (by norm_num) (by norm_num)
    (by norm_num) (by norm_num) (by norm_num)

/-- C2: whenever the three alternatives all return results on the same input,
the two-sided p-value equals 2 · min(greater p-value, less p-value), capped
at 1. -/
theorem C2_twoSided_eq_capped_double_min (c n : ℤ) (p0 : ℚ)
    (g l t : TestResult)
    (hg : test_proportion c n p0 .greater = .ok g)
    (hl : test_proportion c n p0 .less = .ok l)
    (ht : test_proportion c n p0 .twoSided = .ok t) :
    t.p_value = min 1 (2 * min g.p_value l.p_value) := by
  obtain ⟨_, hgr⟩ := test_proportion_ok_iff.mp hg
  obtain ⟨_, hlr⟩ := test_proportion_ok_iff.mp hl
  obtain ⟨_, htr⟩ := test_proportion_ok_iff.mp ht
  rw [hgr, hlr, htr]
  rfl

theorem C2_witness :
    (TestResult.mk (1/2) 1 .twoSided).p_value =
      min 1 (2 * min (TestResult.mk (1/2) (3/4) .greater).p_value
        (TestResult.mk (1/2) (3/4) .less).p_value) :=
  C2_twoSided_eq_capped_double_min 1 2 (1/2) _ _ _
    (by rw [test_proportion_eq_ok .greater (by norm_num) (by norm_num)
          (by norm_num) (by norm_num) (by norm_num)]
        norm_num [raw_p_value, p_value_greater, binomCDF, binomCDFAux, binomPMF,
          Int.toNat])
    (by rw [test_proportion_eq_ok .less (by norm_num) (by norm_num)
          (by norm_num) (by norm_num) (by norm_num)]
        norm_num [raw_p_value, p_value_less, binomCDF, binomCDFAux, binomPMF,
          Int.toNat])
    (by rw [test_proportion_eq_ok .twoSided (by norm_num) (by norm_num)
          (by norm_num) (by norm_num) (by norm_num)]
        norm_num [raw_p_value, p_value_twoSided, p_value_greater, p_value_less,
          binomCDF, binomCDFAux, binomPMF, Int.toNat, min_def])

/-- C3: every p-value returned by the proportion test, for any alternative,
lies in the closed interval [0, 1]. -/
theorem C3_pvalue_in_unit_interval (c n : ℤ) (p0 : ℚ) (alt : Alternative)
    (r : TestResult) (h : test_proportion c n p0 alt = .ok r) :
    0 ≤ r.p_value ∧ r.p_value ≤ 1 := by
  obtain ⟨⟨_, _, _, hp0, hp1⟩, hr⟩ := test_proportion_ok_iff.mp h
  rw [hr]
  have hg0 : 0 ≤ p_value_greater c n p0 := by
    have := binomCDF_le_one hp0 hp1 n.toNat (c - 1)
    unfold p_value_greater
    linarith
  have hg1 : p_value_greater c n p0 ≤ 1 := by
    have := binomCDF_nonneg hp0 hp1 n.toNat (c - 1)
    unfold p_value_greater
    linarith
  have hl0 : 0 ≤ p_value_less c n p0 := binomCDF_nonneg hp0 hp1 n.toNat c
  have hl1 : p_value_less c n p0 ≤ 1 := binomCDF_le_one hp0 hp1 n.toNat c
  cases alt with
  | greater => exact ⟨hg0, hg1⟩
  | less => exact ⟨hl0, hl1⟩
  | twoSided =>
    constructor
    · refine le_min (by norm_num) ?_
      have hmin : 0 ≤ min (p_value_greater c n p0) (p_value_less c n p0) :=
        le_min hg0 hl0
      linarith
    · exact min_le_left _ _

theorem C3_witness :
    0 ≤ (TestResult.mk (((1:ℤ) : ℚ) / ((2:ℤ) : ℚ)) (raw_p_value 1 2 (1/2) .greater)
      .greater).p_value ∧
    (TestResult.mk (((1:ℤ) : ℚ) / ((2:ℤ) : ℚ)) (raw_p_value 1 2 (1/2) .greater)
      .greater).p_value ≤ 1 :=
  C3_pvalue_in_unit_interval 1 2 (1/2) .greater _
    (test_proportion_eq_ok .greater (by norm_num) (by norm_num) (by norm_num)
      (by norm_num) (by norm_num))

/-- C4: the proportion test fails with InvalidParameter exactly when the
inputs are out of range: n ≤ 0, or c outside [0, n], or p0 outside [0, 1];
for in-range inputs no error is raised. -/
theorem C4_invalidParameter_iff_out_of_range (c n : ℤ) (p0 : ℚ)
    (alt : Alternative) :
    test_proportion c n p0 alt = .error .invalidParameter ↔
      (n ≤ 0 ∨ c < 0 ∨ n < c ∨ p0 < 0 ∨ 1 < p0) := by
  unfold test_proportion
  split
  · rename_i h
    obtain ⟨h1, h2, h3, h4, h5⟩ := h
    constructor
    · intro hok
      exact absurd hok (by simp)
    · intro hd
      rcases hd with h' | h' | h' | h' | h' <;> linarith
  · rename_i h
    constructor
    · intro _
      by_contra hd
      push_neg at hd
      exact h hd
    · intro _
      rfl

/-- C5: for a fixed n and p0 with alternative `greater`, the p-value is
non-increasing in the observed count c: if c1 ≤ c2 and both tests return
results, the p-value at c2 is at most the p-value at c1. -/
theorem C5_greater_pvalue_antitone_in_c (n c1 c2 : ℤ) (p0 : ℚ)
    (r1 r2 : TestResult) (hc : c1 ≤ c2)
    (h1 : test_proportion c1 n p0 .greater = .ok r1)
    (h2 : test_proportion c2 n p0 .greater = .ok r2) :
    r2.p_value ≤ r1.p_value := by
  obtain ⟨⟨_, _, _, hp0, hp1⟩, hr1⟩ := test_proportion_ok_iff.mp h1
  obtain ⟨_, hr2⟩ := test_proportion_ok_iff.mp h2
  rw [hr1, hr2]
  show p_value_greater c2 n p0 ≤ p_value_greater c1 n p0
  unfold p_value_greater
  have := binomCDF_mono hp0 hp1 n.toNat (show c1 - 1 ≤ c2 - 1 by omega)
  linarith

theorem C5_witness :
    (TestResult.mk (((1:ℤ) : ℚ) / ((2:ℤ) : ℚ)) (raw_p_value 1 2 (1/2) .greater)
      .greater).p_value ≤
    (TestResult.mk (((0:ℤ) : ℚ) / ((2:ℤ) : ℚ)) (raw_p_value 0 2 (1/2) .greater)
      .greater).p_value :=
  C5_greater_pvalue_antitone_in_c 2 0 1 (1/2) _ _ (by norm_num)
    (test_proportion_eq_ok .greater (by norm_num) (by norm_num) (by norm_num)
      (by norm_num) (by norm_num))
    (test_proportion_eq_ok .greater (by norm_num) (by norm_num) (by norm_num)
      (by norm_num) (by norm_num))

/-- C6 counterexample: with p0 = 1/2 and alternative `greater`, the inputs
(c1, n1) = (0, 1) and (c2, n2) = (0, 2) have n1 < n2 and the same observed
proportion 0 ≠ p0, yet both p-values equal 1, so the p-value is not strictly
decreasing in n. -/
theorem C6_counterexample :
    (1 : ℤ) < 2 ∧
    ((0:ℤ) : ℚ) / ((1:ℤ) : ℚ) = ((0:ℤ) : ℚ) / ((2:ℤ) : ℚ) ∧
    ((0:ℤ) : ℚ) / ((1:ℤ) : ℚ) ≠ 1/2 ∧
    test_proportion 0 1 (1/2) .greater = .ok ⟨0, 1, .greater⟩ ∧
    test_proportion 0 2 (1/2) .greater = .ok ⟨0, 1, .greater⟩ ∧
    ¬ ((TestResult.mk 0 1 .greater).p_value <
        (TestResult.mk 0 1 .greater).p_value) := by
  refine ⟨by norm_num, by norm_num, by norm_num, ?_, ?_, by simp⟩
  · rw [test_proportion_eq_ok .greater (by norm_num) (by norm_num) (by norm_num)
      (by norm_num) (by norm_num)]
    norm_num [raw_p_value, p_value_greater, binomCDF]
  · rw [test_proportion_eq_ok .greater (by norm_num) (by norm_num) (by norm_num)
      (by norm_num) (by norm_num)]
    norm_num [raw_p_value, p_value_greater, binomCDF]

/-- C6 amended: the p-value is not in general strictly decreasing in n for a
fixed observed proportion ≠ p0 (see the counterexample, where it is constant);
when the observed proportion deviates from p0 in the direction of the
alternative, larger samples do give strictly smaller p-values in the
notebooks' concrete regime: with p0 = 1/10 and fixed observed proportion 1/5,
the `greater` p-value strictly decreases from (c, n) = (5, 25) to
(c, n) = (10, 50). -/
theorem C6_amended_concrete_decrease :
    ((5:ℤ) : ℚ) / ((25:ℤ) : ℚ) = ((10:ℤ) : ℚ) / ((50:ℤ) : ℚ) ∧
    ((5:ℤ) : ℚ) / ((25:ℤ) : ℚ) ≠ 1/10 ∧
    ∃ r1 r2 : TestResult,
      test_proportion 5 25 (1/10) .greater = .ok r1 ∧
      test_proportion 10 50 (1/10) .greater = .ok r2 ∧
      r2.p_value < r1.p_value := by
  refine ⟨by norm_num, by norm_num,
    ⟨((5:ℤ) : ℚ) / ((25:ℤ) : ℚ), raw_p_value 5 25 (1/10) .greater, .greater⟩,
    ⟨((10:ℤ) : ℚ) / ((50:ℤ) : ℚ), raw_p_value 10 50 (1/10) .greater, .greater⟩,
    ?_, ?_, ?_⟩
  · exact test_proportion_eq_ok .greater (by norm_num) (by norm_num)
      (by norm_num) (by norm_num) (by norm_num)
  · exact test_proportion_eq_ok .greater (by norm_num) (by norm_num)
      (by norm_num) (by norm_num) (by norm_num)
  · show raw_p_value 10 50 (1/10) .greater < raw_p_value 5 25 (1/10) .greater
    obtain ⟨h2, h3, h4, h5, h6, h7, h8, h9⟩ := choose50_vals
    obtain ⟨g2, g3, g4⟩ := choose25_vals
    norm_num [raw_p_value, p_value_greater, binomCDF, binomCDFAux, binomPMF,
      Int.toNat, h2, h3, h4, h5, h6, h7, h8, h9, g2, g3, g4]

/-- C7: for c = 0 the `greater` p-value is exactly 1 (observing the minimum is
never surprisingly high); in particular test_proportion(0, 10, 1/2, greater)
returns p-value 1. -/
theorem C7_zero_count_pvalue_one (n : ℤ) (p0 : ℚ)
    (hn : 0 < n) (h0 : 0 ≤ p0) (h1 : p0 ≤ 1) :
    test_proportion 0 n p0 .greater = .ok ⟨0, 1, .greater⟩ ∧
    test_proportion 0 10 (1/2) .greater = .ok ⟨0, 1, .greater⟩ := by
  constructor
  · rw [test_proportion_eq_ok .greater hn (by norm_num) (by omega) h0 h1]
    norm_num [raw_p_value, p_value_greater, binomCDF]
  · rw [test_proportion_eq_ok .greater (by norm_num) (by norm_num) (by norm_num)
      (by norm_num) (by norm_num)]
    norm_num [raw_p_value, p_value_greater, binomCDF]

theorem C7_witness :
    test_proportion 0 10 (1/2) .greater = .ok ⟨0, 1, .greater⟩ ∧
    test_proportion 0 10 (1/2) .greater = .ok ⟨0, 1, .greater⟩ :=
  C7_zero_count_pvalue_one 10 (1/2) (by norm_num) (by norm_num) (by norm_num)

/-- C8: for n = 50, c = 10, p0 = 1/10 with alternative `greater`, the test
returns the exact binomial tail 1 − CDF(9; 50, 1/10), which lies strictly
between 0.02453 and 0.02454, and indeed between 0.024537935704591 and
0.024537935704592. -/
theorem C8_concrete_scenario :
    ∃ r : TestResult, test_proportion 10 50 (1/10) .greater = .ok r ∧
      r.p_value = 1 - binomCDF 50 (1/10) 9 ∧
      (2453:ℚ)/100000 < r.p_value ∧ r.p_value < (2454:ℚ)/100000 ∧
      (24537935704591:ℚ)/10^15 < r.p_value ∧
      r.p_value < (24537935704592:ℚ)/10^15 := by
  refine ⟨_, test_proportion_eq_ok .greater (by norm_num) (by norm_num)
    (by norm_num) (by norm_num) (by norm_num), ?_, ?_, ?_, ?_, ?_⟩
  all_goals
    obtain ⟨h2, h3, h4, h5, h6, h7, h8, h9⟩ := choose50_vals
    norm_num [raw_p_value, p_value_greater, binomCDF, binomCDFAux, binomPMF,
      Int.toNat, h2, h3, h4, h5, h6, h7, h8, h9]

/-- C9: the notebooks' manual tail 1 − CDF(c−1; n, p0) coincides with the
library binomial test's `greater` p-value P(X ≥ c): the two embeddings of the
same test agree on every valid input. -/
theorem C9_manual_tail_eq_binomtest (c n : ℕ) (p0 : ℚ)
    (hn : 0 < n) (hc : c ≤ n) (h0 : 0 < p0) (h1 : p0 < 1) :
    1 - binomCDF n p0 ((c : ℤ) - 1) = binomtest_greater c n p0 :=
  binomCDF_tail n p0 hc

theorem C9_witness :
    1 - binomCDF 2 (1/2) (((1:ℕ) : ℤ) - 1) = binomtest_greater 1 2 (1/2) :=
  C9_manual_tail_eq_binomtest 1 2 (1/2) (by norm_num) (by norm_num)
    (by norm_num) (by norm_num)

/-- C10: the code's two-tailed formula 2 · min(F, 1 − F) lies in [0, 1] for
every CDF value F in [0, 1] without any explicit cap, because
min(F, 1 − F) ≤ 1/2. -/
theorem C10_two_tailed_needs_no_cap (F : ℚ) (h0 : 0 ≤ F) (h1 : F ≤ 1) :
    min F (1 - F) ≤ 1/2 ∧ 0 ≤ two_tailed_p F ∧ two_tailed_p F ≤ 1 := by
  have hmin : min F (1 - F) ≤ 1/2 := by
    rcases le_total F (1 - F) with h | h
    · rw [min_eq_left h]
      linarith
    · rw [min_eq_right h]
      linarith
  refine ⟨hmin, ?_, ?_⟩
  · have : 0 ≤ min F (1 - F) := le_min h0 (by linarith)
    unfold two_tailed_p
    linarith
  · unfold two_tailed_p
    linarith

theorem C10_witness :
    min (1/3 : ℚ) (1 - 1/3) ≤ 1/2 ∧ 0 ≤ two_tailed_p (1/3) ∧
      two_tailed_p (1/3) ≤ 1 :=
  C10_two_tailed_needs_no_cap (1/3) (by norm_num) (by norm_num)

end ABTest
